import Mathlib

/-!
Shallow embedding of mergelatex.py, a tool that flattens a tree of LaTeX
source files into a single file.  Text lines are modelled as lists of
characters, pathlib paths as a flag for absoluteness plus a list of
components, and the file system as a partial map from paths to the list of
lines of the file stored there.  The recursive expander is modelled with an
explicit fuel parameter; running out of fuel is a modelling artifact marked
by a dedicated error value.
-/

namespace Texpack

/-- Lines of text, as produced by splitting file content on newlines. -/
abbrev Line := List Char

/-- Model of a pathlib PurePosixPath: whether it is absolute plus its list
of components.  Parsing drops empty components and single-dot components,
as pathlib does; double-dot components are kept verbatim. -/
structure PyPath where
  isAbs : Bool
  comps : List Line
deriving DecidableEq

/-- Parsing of a string into path components: split on slashes, drop empty
and single-dot components (pathlib keeps double-dot components). -/
def splitComps (s : Line) : List Line :=
  (s.splitOn '/').filter (fun c => !(c == []) && !(c == ['.']))

/-- The pathlib slash operator with a string operand: an operand starting
with a slash is absolute and replaces the left path entirely, otherwise the
parsed components are appended. -/
def PyPath.joinStr (p : PyPath) (s : Line) : PyPath :=
  match s with
  | '/' :: _ => ⟨true, splitComps s⟩
  | _ => ⟨p.isAbs, p.comps ++ splitComps s⟩

/-- The pathlib parent property: drops the last component. -/
def PyPath.parent (p : PyPath) : PyPath :=
  ⟨p.isAbs, p.comps.dropLast⟩

/-- The pathlib relative_to method.  It is a purely lexical operation: it
succeeds exactly when the components of the base are a left part of the
components of the path, and none models the ValueError raised otherwise. -/
def PyPath.relative_to (p base : PyPath) : Option PyPath :=
  if (p.isAbs == base.isAbs) && base.comps.isPrefixOf p.comps then
    some ⟨false, p.comps.drop base.comps.length⟩
  else none

/-- Rendering of a path back to text, as str does on a PurePosixPath. -/
def PyPath.toStr (p : PyPath) : Line :=
  match p.comps with
  | [] => if p.isAbs then ['/'] else ['.']
  | cs => (if p.isAbs then ['/'] else []) ++ List.intercalate ['/'] cs

/-- The file system: maps a path to the content of the file stored there,
already split on newlines; none means the file is missing or unreadable. -/
abbrev FS := PyPath → Option (List Line)

/-- Errors a run can end in.  fileNotFound models the exception raised by
read_text on a missing or unreadable file, valueError models the exception
raised by relative_to, and outOfFuel is the modelling artifact for the
unbounded recursion of the source. -/
inductive Err where
  | fileNotFound (target : PyPath)
  | valueError
  | outOfFuel
deriving DecidableEq

/-- The literal part of the InputExtractor regex: a backslash, the word
input and an opening brace. -/
def inputPre : Line := ['\\', 'i', 'n', 'p', 'u', 't', '\x7b']

/-- The literal part of the SubfileExtractor regex: a backslash, the word
subfile and an opening brace. -/
def subfilePre : Line := ['\\', 's', 'u', 'b', 'f', 'i', 'l', 'e', '\x7b']

/-- The file extension appended to every stem. -/
def texExt : Line := ['.', 't', 'e', 'x']

/-- Anchored regex match of a literal followed by a greedy group and a
closing brace: the line starts with the literal and some closing brace
occurs in the remainder. -/
def matchesPat (pfx : Line) (line : Line) : Bool :=
  pfx.isPrefixOf line && (line.drop pfx.length).any (fun c => c == '\x7d')

/-- Group one of the greedy anchored match: the characters of the line
strictly between the literal part and the last closing brace. -/
def stemOf (pfx : Line) (line : Line) : Line :=
  (((line.drop pfx.length).reverse.dropWhile (fun c => !(c == '\x7d'))).drop 1).reverse

/-- InputExtractor.matches from the source: re.match of the input pattern
against the line, coerced to a boolean. -/
def InputExtractor.matches (line : Line) : Bool :=
  matchesPat inputPre line

/-- InputExtractor.extract from the source: the stem is group one of the
match, the target is the project root joined with the stem plus the tex
extension, and the body is the whole content of the target split into
lines.  The parent argument is accepted and ignored, as in the source. -/
def InputExtractor.extract (fs : FS) (parent base : PyPath) (line : Line) :
    Except Err (List Line × PyPath) :=
  let stem := stemOf inputPre line
  let target := base.joinStr (stem ++ texExt)
  match fs target with
  | none => .error (.fileNotFound target)
  | some bodyLines => .ok (bodyLines, target)

/-- The document-begin marker literal, tested by prefix. -/
def beginDocument : Line :=
  ['\\', 'b', 'e', 'g', 'i', 'n', '\x7b', 'd', 'o', 'c', 'u', 'm', 'e', 'n', 't', '\x7d']

/-- The document-end marker literal, tested by suffix. -/
def endDocument : Line :=
  ['\\', 'e', 'n', 'd', '\x7b', 'd', 'o', 'c', 'u', 'm', 'e', 'n', 't', '\x7d']

/-- The scanning loop of SubfileExtractor.extract: a line starting with the
document-begin marker switches collection on and is dropped, a line ending
with the document-end marker switches collection off and is dropped, and
any other line is kept exactly when collection is on. -/
def collectBody : List Line → Bool → List Line
  | [], _ => []
  | l :: rest, inBody =>
    if beginDocument.isPrefixOf l then collectBody rest true
    else if endDocument.isSuffixOf l then collectBody rest false
    else if inBody then l :: collectBody rest inBody
    else collectBody rest inBody

/-- SubfileExtractor.matches from the source. -/
def SubfileExtractor.matches (line : Line) : Bool :=
  matchesPat subfilePre line

/-- SubfileExtractor.extract from the source: the target is the parent
directory of the current file joined with the stem plus the tex extension,
and the body is the result of the document-body scan of the target lines. -/
def SubfileExtractor.extract (fs : FS) (parent base : PyPath) (line : Line) :
    Except Err (List Line × PyPath) :=
  let stem := stemOf subfilePre line
  let target := parent.joinStr (stem ++ texExt)
  match fs target with
  | none => .error (.fileNotFound target)
  | some lines => .ok (collectBody lines false, target)

/-- extract_ifany from the source: try the extractors in their registered
order, InputExtractor first, and run extract of the first whose matches
succeeds; none when no extractor matches. -/
def extract_ifany (fs : FS) (base parent : PyPath) (line : Line) :
    Option (Except Err (List Line × PyPath)) :=
  if InputExtractor.matches line then some (InputExtractor.extract fs parent base line)
  else if SubfileExtractor.matches line then some (SubfileExtractor.extract fs parent base line)
  else none

/-- A provenance marker line: a percent and a space, the arrow glyph
repeated depth plus one times, the root-relative target path, the arrows
again, and the texpack tag. -/
def provMarker (c : Char) (depth : Nat) (rel : PyPath) : Line :=
  ['%', ' '] ++ List.replicate (depth + 1) c ++ [' '] ++ rel.toStr ++ [' ']
    ++ List.replicate (depth + 1) c
    ++ [' ', ':', ' ', 't', 'e', 'x', 'p', 'a', 'c', 'k']

/-- The per-line loop of expand from the source, with the recursive call on
the extracted body abstracted as the expandBody argument.  A matched line
is replaced by an opening marker, the recursively expanded body, and a
closing marker; an unmatched line is passed through; any exception aborts
the whole computation. -/
def expandLines (expandBody : PyPath → List Line → Nat → Except Err (List Line))
    (fs : FS) (base parent : PyPath) (depth : Nat) : List Line → Except Err (List Line)
  | [] => .ok []
  | line :: rest =>
    match extract_ifany fs base parent line with
    | none =>
      match expandLines expandBody fs base parent depth rest with
      | .error e => .error e
      | .ok tail => .ok (line :: tail)
    | some (.error e) => .error e
    | some (.ok (bodyLines, target)) =>
      match target.relative_to base with
      | none => .error .valueError
      | some rel =>
        match expandBody target.parent bodyLines (depth + 1) with
        | .error e => .error e
        | .ok inner =>
          match expandLines expandBody fs base parent depth rest with
          | .error e => .error e
          | .ok tail =>
            .ok (provMarker '>' depth rel :: inner
              ++ provMarker '<' depth rel :: tail)

/-- expand from the source, with fuel bounding the inclusion nesting depth
the model can follow; the source itself recurses without bound. -/
def expand (fs : FS) (base : PyPath) : Nat → PyPath → List Line → Nat → Except Err (List Line)
  | 0, parent, lines, depth =>
    expandLines (fun _ _ _ => .error .outOfFuel) fs base parent depth lines
  | fuel + 1, parent, lines, depth =>
    expandLines (expand fs base fuel) fs base parent depth lines

/-- Outcome of a run of main: the user declined the overwrite and the
process exited, an exception propagated out, or the merged text was
written to the output file. -/
inductive MainResult where
  | aborted
  | errored (e : Err)
  | written (text : List Line)
deriving DecidableEq

/-- The affirmative overwrite response accepted by main. -/
def yesToken : Line := ['Y']

/-- main from the source: when the output path exists the driver prompts
and exits unless the response is exactly the affirmative token; otherwise
the project root is set to the parent of the entry file, the entry is read
and expanded from that directory at depth zero, and the joined result is
written.  Reading and expansion errors propagate out unhandled. -/
def main (fs : FS) (entry : PyPath) (outputExists : Bool) (response : Line)
    (fuel : Nat) : MainResult :=
  if outputExists && !(response == yesToken) then .aborted
  else
    match fs entry with
    | none => .errored (.fileNotFound entry)
    | some entryLines =>
      match expand fs entry.parent fuel entry.parent entryLines 0 with
      | .error e => .errored e
      | .ok result => .written result

/-- Comparison definition for the order-independence part of claim C6, not
taken from the source: extract_ifany with the two registered extractors
tried in the opposite order. -/
def extract_ifany_swapped (fs : FS) (base parent : PyPath) (line : Line) :
    Option (Except Err (List Line × PyPath)) :=
  if SubfileExtractor.matches line then some (SubfileExtractor.extract fs parent base line)
  else if InputExtractor.matches line then some (InputExtractor.extract fs parent base line)
  else none

/-! Helper lemmas. -/

theorem isPrefixOf_iff_exists (l₁ l₂ : List Char) :
    l₁.isPrefixOf l₂ = true ↔ ∃ t, l₁ ++ t = l₂ := by
  induction l₁ generalizing l₂ with
  | nil => simp [List.isPrefixOf]
  | cons a as ih =>
    cases l₂ with
    | nil => simp [List.isPrefixOf]
    | cons b bs => simp [List.isPrefixOf, ih bs, and_assoc]

theorem matchesPat_iff (pfx line : Line) :
    matchesPat pfx line = true ↔ ∃ mid rest, line = pfx ++ (mid ++ '\x7d' :: rest) := by
  unfold matchesPat
  rw [Bool.and_eq_true, isPrefixOf_iff_exists]
  constructor
  · rintro ⟨⟨t, rfl⟩, hany⟩
    rw [List.drop_left, List.any_eq_true] at hany
    obtain ⟨c, hc, hbeq⟩ := hany
    rw [beq_iff_eq] at hbeq
    subst hbeq
    obtain ⟨s, r, rfl⟩ := List.append_of_mem hc
    exact ⟨s, r, rfl⟩
  · rintro ⟨mid, rest, rfl⟩
    refine ⟨⟨_, rfl⟩, ?_⟩
    rw [List.drop_left, List.any_eq_true]
    exact ⟨'\x7d', by simp, by simp⟩

theorem expandLines_id (eb : PyPath → List Line → Nat → Except Err (List Line))
    (fs : FS) (base parent : PyPath) (depth : Nat) (lines : List Line)
    (h : ∀ l ∈ lines, extract_ifany fs base parent l = none) :
    expandLines eb fs base parent depth lines = .ok lines := by
  induction lines with
  | nil => rfl
  | cons l rest ih =>
    have hl := h l (by simp)
    have hrest := ih (fun x hx => h x (by simp [hx]))
    simp [expandLines, hl, hrest]

/-- Specification-side state transition of the document-body scan, used as
the comparison model for claim C2: the fold carries the in-body flag and
the collected lines; a begin-marker line switches the flag on and is
dropped, an end-marker line switches it off and is dropped, and any other
line is appended exactly when the flag is on. -/
def bodyScanStep (st : Bool × List Line) (l : Line) : Bool × List Line :=
  if beginDocument.isPrefixOf l then (true, st.2)
  else if endDocument.isSuffixOf l then (false, st.2)
  else if st.1 then (st.1, st.2 ++ [l])
  else st

/-- Specification-side description of the extracted document body for
claim C2: fold the scan over the target lines starting out of body with
nothing collected. -/
def specBodyLines (lines : List Line) : List Line :=
  (lines.foldl bodyScanStep (false, [])).2

/-- The in-body flag after scanning a list of lines from a given state. -/
def inBodyAfter (lines : List Line) (b : Bool) : Bool :=
  lines.foldl
    (fun s l =>
      if beginDocument.isPrefixOf l then true
      else if endDocument.isSuffixOf l then false
      else s) b

theorem foldl_bodyScanStep (lines : List Line) :
    ∀ (b : Bool) (acc : List Line),
      (lines.foldl bodyScanStep (b, acc)).2 = acc ++ collectBody lines b := by
  induction lines with
  | nil => intro b acc; simp [collectBody]
  | cons l rest ih =>
    intro b acc
    cases hb : beginDocument.isPrefixOf l with
    | true => simp [bodyScanStep, hb, collectBody, ih]
    | false =>
      cases he : endDocument.isSuffixOf l with
      | true => simp [bodyScanStep, hb, he, collectBody, ih]
      | false => cases b <;> simp [bodyScanStep, hb, he, collectBody, ih]

theorem specBodyLines_eq_collectBody (lines : List Line) :
    specBodyLines lines = collectBody lines false := by
  unfold specBodyLines
  rw [foldl_bodyScanStep]
  simp

theorem collectBody_nil_of_no_begin (lines : List Line)
    (h : ∀ l ∈ lines, beginDocument.isPrefixOf l = false) :
    collectBody lines false = [] := by
  induction lines with
  | nil => rfl
  | cons l rest ih =>
    have hl := h l (by simp)
    have hr := ih (fun x hx => h x (by simp [hx]))
    cases he : endDocument.isSuffixOf l with
    | true => simp [collectBody, hl, he, hr]
    | false => simp [collectBody, hl, he, hr]

theorem inBodyAfter_cons (l : Line) (rest : List Line) (b : Bool) :
    inBodyAfter (l :: rest) b
      = inBodyAfter rest
          (if beginDocument.isPrefixOf l then true
            else if endDocument.isSuffixOf l then false else b) := rfl

theorem collectBody_append (xs ys : List Line) :
    ∀ b, collectBody (xs ++ ys) b
      = collectBody xs b ++ collectBody ys (inBodyAfter xs b) := by
  induction xs with
  | nil => intro b; simp [collectBody, inBodyAfter]
  | cons l rest ih =>
    intro b
    cases hb : beginDocument.isPrefixOf l with
    | true => simp [collectBody, inBodyAfter_cons, hb, ih]
    | false =>
      cases he : endDocument.isSuffixOf l with
      | true => simp [collectBody, inBodyAfter_cons, hb, he, ih]
      | false =>
        cases b <;> simp [collectBody, inBodyAfter_cons, hb, he, ih]

theorem collectBody_plain (ys : List Line)
    (h : ∀ l ∈ ys, beginDocument.isPrefixOf l = false ∧ endDocument.isSuffixOf l = false) :
    collectBody ys true = ys := by
  induction ys with
  | nil => rfl
  | cons l rest ih =>
    have hl := h l (by simp)
    have hr := ih (fun x hx => h x (by simp [hx]))
    simp [collectBody, hl.1, hl.2, hr]

/-! Claim theorems. -/

/-- C2: a matched document-body include with stem S extracted while the
current parent directory is P resolves its target to P slash S dot tex,
and returns as body exactly the lines collected by the edge-exclusive
in-body scan of the target lines; in particular the body is empty when no
begin-marker line exists, and when a begin marker is found and only plain
lines follow it, all of them are included. -/
theorem c2_subfile_body (fs : FS) (parent base : PyPath) (line : Line) (tlines : List Line)
    (hm : SubfileExtractor.matches line = true)
    (hfs : fs (parent.joinStr (stemOf subfilePre line ++ texExt)) = some tlines) :
    SubfileExtractor.extract fs parent base line
        = .ok (specBodyLines tlines, parent.joinStr (stemOf subfilePre line ++ texExt))
    ∧ ((∀ l ∈ tlines, beginDocument.isPrefixOf l = false) → specBodyLines tlines = [])
    ∧ (∀ pre b post, tlines = pre ++ b :: post → beginDocument.isPrefixOf b = true →
        (∀ l ∈ post, beginDocument.isPrefixOf l = false ∧ endDocument.isSuffixOf l = false) →
        specBodyLines tlines = specBodyLines pre ++ post) := by
  refine ⟨?_, ?_, ?_⟩
  · simp only [SubfileExtractor.extract, hfs, specBodyLines_eq_collectBody]
  · intro h
    rw [specBodyLines_eq_collectBody]
    exact collectBody_nil_of_no_begin tlines h
  · intro pre b post heq hb hpost
    rw [specBodyLines_eq_collectBody, specBodyLines_eq_collectBody, heq,
      collectBody_append]
    have hbp : collectBody (b :: post) (inBodyAfter pre false) = post := by
      simp [collectBody, hb, collectBody_plain post hpost]
    rw [hbp]

/-- C2 witness: a concrete subfile directive extracting the single body
line between the document markers of its target. -/
theorem c2_subfile_body_witness :
    Texpack.SubfileExtractor.extract
      (fun p => if p = ⟨true, [['d'], ['s', '.', 't', 'e', 'x']]⟩ then
        some [['p'], Texpack.beginDocument, ['o', 'k'], Texpack.endDocument, ['q']] else none)
      ⟨true, [['d']]⟩ ⟨true, []⟩
      ['\\', 's', 'u', 'b', 'f', 'i', 'l', 'e', '\x7b', 's', '\x7d']
      = .ok ([['o', 'k']], ⟨true, [['d'], ['s', '.', 't', 'e', 'x']]⟩) :=
  (c2_subfile_body
    (fun p => if p = ⟨true, [['d'], ['s', '.', 't', 'e', 'x']]⟩ then
      some [['p'], Texpack.beginDocument, ['o', 'k'], Texpack.endDocument, ['q']] else none)
    ⟨true, [['d']]⟩ ⟨true, []⟩
    ['\\', 's', 'u', 'b', 'f', 'i', 'l', 'e', '\x7b', 's', '\x7d']
    [['p'], Texpack.beginDocument, ['o', 'k'], Texpack.endDocument, ['q']]
    (by decide) rfl).1

/-- C3: a matched whole-file include with stem S resolves its target to
the project root joined with S dot tex, independently of the current
parent directory, and returns the entire target content as the body. -/
theorem c3_input_whole_file (fs : FS) (base : PyPath) (line : Line) (tlines : List Line)
    (hm : InputExtractor.matches line = true)
    (hfs : fs (base.joinStr (stemOf inputPre line ++ texExt)) = some tlines) :
    ∀ parent : PyPath, InputExtractor.extract fs parent base line
      = .ok (tlines, base.joinStr (stemOf inputPre line ++ texExt)) := by
  intro parent
  simp only [InputExtractor.extract, hfs]

/-- C3 witness: a concrete input directive returns the whole target file
verbatim from the root directory, for two different parent directories. -/
theorem c3_input_whole_file_witness :
    Texpack.InputExtractor.extract
      (fun p => if p = ⟨true, [['r'], ['a', '.', 't', 'e', 'x']]⟩ then
        some [['u'], ['v']] else none)
      ⟨true, [['r'], ['d', 'e', 'e', 'p']]⟩ ⟨true, [['r']]⟩
      ['\\', 'i', 'n', 'p', 'u', 't', '\x7b', 'a', '\x7d']
      = .ok ([['u'], ['v']], ⟨true, [['r'], ['a', '.', 't', 'e', 'x']]⟩) :=
  c3_input_whole_file _ _ _ _ (by decide) rfl ⟨true, [['r'], ['d', 'e', 'e', 'p']]⟩

/-- C8 counterexample: a line that matches the input directive literal and
whose braced content a dot b is not a bare stem is nevertheless extracted
successfully, the dotted content being used verbatim as the stem; no
pattern-extraction failure occurs. -/
theorem c8_counterexample :
    extract_ifany
      (fun p => if p = ⟨true, [['r'], ['a', '.', 'b', '.', 't', 'e', 'x']]⟩ then
        some [['o', 'k']] else none)
      ⟨true, [['r']]⟩ ⟨true, [['r']]⟩
      ['\\', 'i', 'n', 'p', 'u', 't', '\x7b', 'a', '.', 'b', '\x7d']
      = some (.ok ([['o', 'k']], ⟨true, [['r'], ['a', '.', 'b', '.', 't', 'e', 'x']]⟩)) := rfl

/-- C8 amended: a line matched by a directive variant is always handed to
that extractor and never fails at the pattern stage: the greedy capture
accepts any braced content, dots and inner braces included, verbatim as
the stem, and the only error extraction can raise is the missing-file
error for the resolved target. -/
theorem c8_no_pattern_failure (fs : FS) (base parent : PyPath) (line : Line)
    (hm : InputExtractor.matches line = true ∨ SubfileExtractor.matches line = true) :
    ∃ r, extract_ifany fs base parent line = some r
      ∧ ∀ e, r = .error e → ∃ t, e = .fileNotFound t ∧ fs t = none := by
  cases hin : InputExtractor.matches line with
  | true =>
    refine ⟨InputExtractor.extract fs parent base line, by simp [extract_ifany, hin], ?_⟩
    intro e he
    cases hfs : fs (base.joinStr (stemOf inputPre line ++ texExt)) with
    | none =>
      simp only [InputExtractor.extract, hfs, Except.error.injEq] at he
      exact ⟨_, he.symm, hfs⟩
    | some ls =>
      simp only [InputExtractor.extract, hfs] at he
      exact Except.noConfusion he
  | false =>
    have hsub : SubfileExtractor.matches line = true := by
      cases hm with
      | inl h => rw [h] at hin; cases hin
      | inr h => exact h
    refine ⟨SubfileExtractor.extract fs parent base line, by simp [extract_ifany, hin, hsub], ?_⟩
    intro e he
    cases hfs : fs (parent.joinStr (stemOf subfilePre line ++ texExt)) with
    | none =>
      simp only [SubfileExtractor.extract, hfs, Except.error.injEq] at he
      exact ⟨_, he.symm, hfs⟩
    | some ls =>
      simp only [SubfileExtractor.extract, hfs] at he
      exact Except.noConfusion he

/-- C8 amended witness: on a missing target the matched directive yields
exactly the missing-file error of the resolved target path. -/
theorem c8_no_pattern_failure_witness :
    ∃ r, extract_ifany (fun _ => none) ⟨true, []⟩ ⟨true, []⟩
        ['\\', 'i', 'n', 'p', 'u', 't', '\x7b', 'z', '\x7d'] = some r
      ∧ ∀ e, r = .error e →
          ∃ t, e = Texpack.Err.fileNotFound t ∧ (fun _ : Texpack.PyPath => (none : Option (List Texpack.Line))) t = none :=
  c8_no_pattern_failure (fun _ => none) ⟨true, []⟩ ⟨true, []⟩ _ (Or.inl (by decide))

/-- C4: for every input line sequence in which no line matches any
directive variant, and for every fuel, current directory and depth, the
expansion output equals the input line sequence exactly. -/
theorem c4_identity_law (fs : FS) (base : PyPath) (lines : List Line)
    (h : ∀ l ∈ lines, InputExtractor.matches l = false ∧ SubfileExtractor.matches l = false) :
    ∀ fuel parent depth, expand fs base fuel parent lines depth = .ok lines := by
  intro fuel parent depth
  have h' : ∀ l ∈ lines, extract_ifany fs base parent l = none := by
    intro l hl
    have hm := h l hl
    simp [extract_ifany, hm.1, hm.2]
  cases fuel with
  | zero => exact expandLines_id _ fs base parent depth lines h'
  | succ n => exact expandLines_id _ fs base parent depth lines h'

/-- C4 witness: a concrete three-line input with no directives expands to
itself. -/
theorem c4_identity_law_witness :
    Texpack.expand (fun _ => none) ⟨true, []⟩ 2 ⟨true, []⟩
      [['h', 'i'], [' ', '\\', 'i', 'n', 'p', 'u', 't'], []] 0
      = .ok [['h', 'i'], [' ', '\\', 'i', 'n', 'p', 'u', 't'], []] :=
  c4_identity_law (fun _ => none) ⟨true, []⟩ _ (by decide) 2 ⟨true, []⟩ 0

/-- C5: each matches predicate is a pure anchored test: it is true exactly
when the line starts with the literal directive text, opening brace
included, followed by a braced argument closed by some later closing
brace; a line whose first character is not the backslash of the directive,
for example one starting with whitespace or other text, never matches. -/
theorem c5_matches_anchored (line : Line) :
    (InputExtractor.matches line = true ↔
      ∃ mid rest, line = inputPre ++ (mid ++ '\x7d' :: rest))
    ∧ (SubfileExtractor.matches line = true ↔
      ∃ mid rest, line = subfilePre ++ (mid ++ '\x7d' :: rest))
    ∧ (∀ c s, line = c :: s → c ≠ '\\' →
      InputExtractor.matches line = false ∧ SubfileExtractor.matches line = false) := by
  refine ⟨matchesPat_iff inputPre line, matchesPat_iff subfilePre line, ?_⟩
  rintro c s rfl hc
  have h1 : (('\\' : Char) == c) = false := by
    rw [beq_eq_false_iff_ne]
    exact fun hcontra => hc hcontra.symm
  constructor
  · simp [InputExtractor.matches, matchesPat, inputPre, List.isPrefixOf, h1]
  · simp [SubfileExtractor.matches, matchesPat, subfilePre, List.isPrefixOf, h1]

/-- C5 witness: a well-formed directive at the start of a line matches,
and the same directive preceded by a space does not. -/
theorem c5_matches_anchored_witness :
    Texpack.InputExtractor.matches ['\\', 'i', 'n', 'p', 'u', 't', '\x7b', 'x', '\x7d'] = true
    ∧ Texpack.InputExtractor.matches [' ', '\\', 'i', 'n', 'p', 'u', 't', '\x7b', 'x', '\x7d'] = false :=
  ⟨(c5_matches_anchored _).1.mpr ⟨['x'], [], rfl⟩,
    ((c5_matches_anchored _).2.2 ' ' _ rfl (by decide)).1⟩

/-- C6: no line is matched by both directive variants, and consequently
extract_ifany returns the same result when the two extractors are tried in
the opposite order. -/
theorem c6_mutual_exclusion :
    (∀ line : Line, (InputExtractor.matches line && SubfileExtractor.matches line) = false)
    ∧ ∀ (fs : FS) (base parent : PyPath) (line : Line),
        extract_ifany fs base parent line = extract_ifany_swapped fs base parent line := by
  have hexcl : ∀ line : Line, InputExtractor.matches line = true →
      SubfileExtractor.matches line = false := by
    intro line hin
    by_contra hsub
    rw [Bool.not_eq_false] at hsub
    obtain ⟨m1, r1, h1⟩ := (matchesPat_iff inputPre line).mp hin
    obtain ⟨m2, r2, h2⟩ := (matchesPat_iff subfilePre line).mp hsub
    rw [h1] at h2
    simp [inputPre, subfilePre] at h2
  refine ⟨fun line => ?_, fun fs base parent line => ?_⟩
  · cases hin : InputExtractor.matches line with
    | false => simp
    | true => simp [hexcl line hin]
  · unfold extract_ifany extract_ifany_swapped
    cases hin : InputExtractor.matches line with
    | false => cases hsub : SubfileExtractor.matches line <;> simp [hin, hsub]
    | true => simp [hin, hexcl line hin]

theorem expand_zero (fs : FS) (base parent : PyPath) (lines : List Line) (depth : Nat) :
    expand fs base 0 parent lines depth
      = expandLines (fun _ _ _ => .error .outOfFuel) fs base parent depth lines := rfl

theorem expand_succ (fs : FS) (base parent : PyPath) (fuel : Nat)
    (lines : List Line) (depth : Nat) :
    expand fs base (fuel + 1) parent lines depth
      = expandLines (expand fs base fuel) fs base parent depth lines := rfl

theorem expandLines_error_of_failing_line
    (eb : PyPath → List Line → Nat → Except Err (List Line))
    (fs : FS) (base parent : PyPath) (depth : Nat) (lines : List Line)
    (hfail : ∃ l ∈ lines, ∃ e, extract_ifany fs base parent l = some (.error e)) :
    ∃ e2, expandLines eb fs base parent depth lines = .error e2 := by
  induction lines with
  | nil => obtain ⟨l, hl, _⟩ := hfail; cases hl
  | cons x rest ih =>
    obtain ⟨l, hl, e, he⟩ := hfail
    rcases List.mem_cons.mp hl with rfl | hmem
    · exact ⟨e, by simp [expandLines, he]⟩
    · have h2 := ih ⟨l, hmem, e, he⟩
      obtain ⟨e2, he2⟩ := h2
      cases hx : extract_ifany fs base parent x with
      | none => exact ⟨e2, by simp [expandLines, hx, he2]⟩
      | some r =>
        cases r with
        | error e0 => exact ⟨e0, by simp [expandLines, hx]⟩
        | ok p =>
          obtain ⟨bodyLines, target⟩ := p
          cases hr : target.relative_to base with
          | none => exact ⟨.valueError, by simp [expandLines, hx, hr]⟩
          | some rel =>
            cases hb : eb target.parent bodyLines (depth + 1) with
            | error e1 => exact ⟨e1, by simp [expandLines, hx, hr, hb]⟩
            | ok inner => exact ⟨e2, by simp [expandLines, hx, hr, hb, he2]⟩

theorem expand_error_of_failing_line (fs : FS) (base parent : PyPath)
    (fuel depth : Nat) (lines : List Line)
    (hfail : ∃ l ∈ lines, ∃ e, extract_ifany fs base parent l = some (.error e)) :
    ∃ e2, expand fs base fuel parent lines depth = .error e2 := by
  cases fuel with
  | zero => exact expandLines_error_of_failing_line _ fs base parent depth lines hfail
  | succ n => exact expandLines_error_of_failing_line _ fs base parent depth lines hfail

/-- A matched directive with an unreadable resolved target reachable
during expansion, at any nesting depth: either a line of the current file
fails extraction directly, or a line of the current file extracts
successfully and the failure lies within the extracted body, considered
from the parent directory of its target with one less unit of fuel. -/
inductive FailureIn (fs : FS) (base : PyPath) : Nat → PyPath → List Line → Prop where
  | here (fuel : Nat) (parent : PyPath) (lines : List Line) (line : Line) (e : Err)
      (hmem : line ∈ lines)
      (hx : extract_ifany fs base parent line = some (.error e)) :
      FailureIn fs base fuel parent lines
  | nested (fuel : Nat) (parent : PyPath) (lines : List Line) (line : Line)
      (bodyLines : List Line) (target : PyPath)
      (hmem : line ∈ lines)
      (hx : extract_ifany fs base parent line = some (.ok (bodyLines, target)))
      (hbody : FailureIn fs base fuel target.parent bodyLines) :
      FailureIn fs base (fuel + 1) parent lines

theorem expandLines_error_of_nested
    (eb : PyPath → List Line → Nat → Except Err (List Line))
    (fs : FS) (base parent : PyPath) (depth : Nat) (lines : List Line)
    (line : Line) (bodyLines : List Line) (target : PyPath)
    (hmem : line ∈ lines)
    (hx : extract_ifany fs base parent line = some (.ok (bodyLines, target)))
    (hbody : ∀ d, ∃ e, eb target.parent bodyLines d = .error e) :
    ∃ e2, expandLines eb fs base parent depth lines = .error e2 := by
  revert hmem
  induction lines with
  | nil => intro hmem; cases hmem
  | cons x rest ih =>
    intro hmem
    rcases List.mem_cons.mp hmem with rfl | hmemr
    · cases hr : target.relative_to base with
      | none => exact ⟨.valueError, by simp [expandLines, hx, hr]⟩
      | some rel =>
        obtain ⟨e1, he1⟩ := hbody (depth + 1)
        exact ⟨e1, by simp [expandLines, hx, hr, he1]⟩
    · obtain ⟨e2, he2⟩ := ih hmemr
      cases hx2 : extract_ifany fs base parent x with
      | none => exact ⟨e2, by simp [expandLines, hx2, he2]⟩
      | some r =>
        cases r with
        | error e0 => exact ⟨e0, by simp [expandLines, hx2]⟩
        | ok p =>
          obtain ⟨b2, t2⟩ := p
          cases hr : t2.relative_to base with
          | none => exact ⟨.valueError, by simp [expandLines, hx2, hr]⟩
          | some rel =>
            cases hb : eb t2.parent b2 (depth + 1) with
            | error e1 => exact ⟨e1, by simp [expandLines, hx2, hr, hb]⟩
            | ok inner => exact ⟨e2, by simp [expandLines, hx2, hr, hb, he2]⟩

theorem expand_error_of_failureIn (fs : FS) (base : PyPath)
    (fuel : Nat) (parent : PyPath) (lines : List Line)
    (hfail : FailureIn fs base fuel parent lines) :
    ∀ depth, ∃ e, expand fs base fuel parent lines depth = .error e := by
  induction hfail with
  | here fuel parent lines line e hmem hx =>
    intro depth
    exact expand_error_of_failing_line fs base parent fuel depth lines ⟨line, hmem, e, hx⟩
  | nested fuel parent lines line bodyLines target hmem hx hbody ih =>
    intro depth
    rw [expand_succ]
    exact expandLines_error_of_nested (expand fs base fuel) fs base parent depth lines
      line bodyLines target hmem hx ih

/-- C1: when a line is matched and extracted at depth d, the expander
replaces it by exactly one opening marker of the documented shape, the
body recursively expanded at depth d plus one with the parent directory of
the target as the new current directory, one matching closing marker with
the same arrow count, and then the expansion of the remaining lines; the
path named by both markers is the target path made relative to the project
root. -/
theorem c1_provenance_markers (fs : FS) (base parent target rel : PyPath)
    (line : Line) (rest bodyLines inner tail : List Line) (fuel depth : Nat)
    (hx : extract_ifany fs base parent line = some (.ok (bodyLines, target)))
    (hrel : target.relative_to base = some rel)
    (hinner : expand fs base fuel target.parent bodyLines (depth + 1) = .ok inner)
    (htail : expand fs base (fuel + 1) parent rest depth = .ok tail) :
    expand fs base (fuel + 1) parent (line :: rest) depth
      = .ok ((['%', ' '] ++ List.replicate (depth + 1) '>' ++ [' '] ++ rel.toStr ++ [' ']
            ++ List.replicate (depth + 1) '>' ++ [' ', ':', ' ', 't', 'e', 'x', 'p', 'a', 'c', 'k'])
          :: inner
          ++ (['%', ' '] ++ List.replicate (depth + 1) '<' ++ [' '] ++ rel.toStr ++ [' ']
            ++ List.replicate (depth + 1) '<' ++ [' ', ':', ' ', 't', 'e', 'x', 'p', 'a', 'c', 'k'])
          :: tail) := by
  rw [expand_succ] at htail ⊢
  simp [expandLines, hx, hrel, hinner, htail, provMarker]

/-- C1 witness: a concrete whole-file include at depth zero is bracketed
by exactly one marker pair with one arrow each, naming the root-relative
target path. -/
theorem c1_provenance_markers_witness :
    Texpack.expand
      (fun p => if p = ⟨true, [['r'], ['a', '.', 't', 'e', 'x']]⟩ then some [['X']] else none)
      ⟨true, [['r']]⟩ 1 ⟨true, [['r']]⟩
      [['\\', 'i', 'n', 'p', 'u', 't', '\x7b', 'a', '\x7d']] 0
      = .ok [['%', ' ', '>', ' ', 'a', '.', 't', 'e', 'x', ' ', '>', ' ', ':', ' ',
            't', 'e', 'x', 'p', 'a', 'c', 'k'],
          ['X'],
          ['%', ' ', '<', ' ', 'a', '.', 't', 'e', 'x', ' ', '<', ' ', ':', ' ',
            't', 'e', 'x', 'p', 'a', 'c', 'k']] :=
  c1_provenance_markers
    (fun p => if p = ⟨true, [['r'], ['a', '.', 't', 'e', 'x']]⟩ then some [['X']] else none)
    ⟨true, [['r']]⟩ ⟨true, [['r']]⟩ ⟨true, [['r'], ['a', '.', 't', 'e', 'x']]⟩
    ⟨false, [['a', '.', 't', 'e', 'x']]⟩
    ['\\', 'i', 'n', 'p', 'u', 't', '\x7b', 'a', '\x7d'] [] [['X']] [['X']] [] 0 0
    rfl rfl rfl rfl

/-- C7: when the entry file is readable, the run proceeds past the
overwrite prompt, and some matched directive reachable at any nesting
depth of the expansion has an unreadable resolved target, the run ends in
a propagated error and no output is ever written. -/
theorem c7_missing_target_fatal (fs : FS) (entry : PyPath) (outputExists : Bool)
    (response : Line) (fuel : Nat) (lines : List Line)
    (hread : fs entry = some lines)
    (hprompt : outputExists = false ∨ response = yesToken)
    (hfail : FailureIn fs entry.parent fuel entry.parent lines) :
    (∃ e, main fs entry outputExists response fuel = .errored e)
    ∧ ∀ out, main fs entry outputExists response fuel ≠ .written out := by
  have hcond : (outputExists && !(response == yesToken)) = false := by
    rcases hprompt with h | h
    · simp [h]
    · simp [h]
  obtain ⟨e2, he2⟩ :=
    expand_error_of_failureIn fs entry.parent fuel entry.parent lines hfail 0
  constructor
  · exact ⟨e2, by simp [main, hcond, hread, he2]⟩
  · intro out
    simp [main, hcond, hread, he2]

/-- C7 witness: an entry that includes a readable file a.tex which in
turn references a missing target m.tex, a failure one nesting level deep,
makes the run error out, with nothing written. -/
theorem c7_missing_target_fatal_witness :
    (∃ e, Texpack.main
        (fun p => if p = ⟨true, [['r'], ['e', '.', 't', 'e', 'x']]⟩ then
          some [['\\', 'i', 'n', 'p', 'u', 't', '\x7b', 'a', '\x7d']]
        else if p = ⟨true, [['r'], ['a', '.', 't', 'e', 'x']]⟩ then
          some [['\\', 'i', 'n', 'p', 'u', 't', '\x7b', 'm', '\x7d']]
        else none)
        ⟨true, [['r'], ['e', '.', 't', 'e', 'x']]⟩ false [] 1 = .errored e)
    ∧ ∀ out, Texpack.main
        (fun p => if p = ⟨true, [['r'], ['e', '.', 't', 'e', 'x']]⟩ then
          some [['\\', 'i', 'n', 'p', 'u', 't', '\x7b', 'a', '\x7d']]
        else if p = ⟨true, [['r'], ['a', '.', 't', 'e', 'x']]⟩ then
          some [['\\', 'i', 'n', 'p', 'u', 't', '\x7b', 'm', '\x7d']]
        else none)
        ⟨true, [['r'], ['e', '.', 't', 'e', 'x']]⟩ false [] 1 ≠ .written out :=
  c7_missing_target_fatal
    (fun p => if p = ⟨true, [['r'], ['e', '.', 't', 'e', 'x']]⟩ then
      some [['\\', 'i', 'n', 'p', 'u', 't', '\x7b', 'a', '\x7d']]
    else if p = ⟨true, [['r'], ['a', '.', 't', 'e', 'x']]⟩ then
      some [['\\', 'i', 'n', 'p', 'u', 't', '\x7b', 'm', '\x7d']]
    else none)
    ⟨true, [['r'], ['e', '.', 't', 'e', 'x']]⟩ false [] 1
    [['\\', 'i', 'n', 'p', 'u', 't', '\x7b', 'a', '\x7d']]
    rfl (Or.inl rfl)
    (Texpack.FailureIn.nested 0 ⟨true, [['r']]⟩
      [['\\', 'i', 'n', 'p', 'u', 't', '\x7b', 'a', '\x7d']]
      ['\\', 'i', 'n', 'p', 'u', 't', '\x7b', 'a', '\x7d']
      [['\\', 'i', 'n', 'p', 'u', 't', '\x7b', 'm', '\x7d']]
      ⟨true, [['r'], ['a', '.', 't', 'e', 'x']]⟩
      (by simp) rfl
      (Texpack.FailureIn.here 0 ⟨true, [['r']]⟩
        [['\\', 'i', 'n', 'p', 'u', 't', '\x7b', 'm', '\x7d']]
        ['\\', 'i', 'n', 'p', 'u', 't', '\x7b', 'm', '\x7d']
        (.fileNotFound ⟨true, [['r'], ['m', '.', 't', 'e', 'x']]⟩)
        (by simp) rfl))

/-- C9: when the output path already exists and the response is not
exactly the affirmative token, main exits with the abort outcome and
nothing is ever written. -/
theorem c9_overwrite_declined (fs : FS) (entry : PyPath) (response : Line) (fuel : Nat)
    (h : response ≠ yesToken) :
    main fs entry true response fuel = .aborted
    ∧ ∀ out, main fs entry true response fuel ≠ .written out := by
  have hbeq : (response == yesToken) = false := by
    rw [beq_eq_false_iff_ne]
    exact h
  constructor
  · simp [main, hbeq]
  · intro out
    simp [main, hbeq]

/-- C9 witness: a lowercase y response declines the overwrite and nothing
is written. -/
theorem c9_overwrite_declined_witness :
    Texpack.main (fun _ => none) ⟨true, []⟩ true ['y'] 3 = .aborted
    ∧ ∀ out, Texpack.main (fun _ => none) ⟨true, []⟩ true ['y'] 3 ≠ .written out :=
  c9_overwrite_declined (fun _ => none) ⟨true, []⟩ ['y'] 3 (by decide)

/-- C10 counterexample: a document-body include whose stem begins with two
dots, issued from a file whose directory is the project root, resolves to
a readable target outside the root, yet expansion succeeds: relative_to is
a lexical operation, the two-dot component keeps the root components as a
left part, and the markers name the dotted relative path. -/
theorem c10_counterexample :
    expand
      (fun p => if p = ⟨true, [['p'], ['.', '.'], ['x', '.', 't', 'e', 'x']]⟩ then
        some [beginDocument, ['h', 'e', 'l', 'l', 'o'], endDocument] else none)
      ⟨true, [['p']]⟩ 1 ⟨true, [['p']]⟩
      [['\\', 's', 'u', 'b', 'f', 'i', 'l', 'e', '\x7b', '.', '.', '/', 'x', '\x7d']] 0
      = .ok [['%', ' ', '>', ' ', '.', '.', '/', 'x', '.', 't', 'e', 'x', ' ', '>',
            ' ', ':', ' ', 't', 'e', 'x', 'p', 'a', 'c', 'k'],
          ['h', 'e', 'l', 'l', 'o'],
          ['%', ' ', '<', ' ', '.', '.', '/', 'x', '.', 't', 'e', 'x', ' ', '<',
            ' ', ':', ' ', 't', 'e', 'x', 'p', 'a', 'c', 'k']] := rfl

/-- C10 amended: expansion fails with the path-relativization error
exactly for a matched directive whose readable resolved target does not
have the project root components as a lexical left part of its own, for
example when the stem is an absolute path; the failure occurs after the
target was read successfully, and a two-dot stem issued from the project
root does not trigger it. -/
theorem c10_relativization_error (fs : FS) (base parent target : PyPath)
    (line : Line) (rest bodyLines : List Line) (fuel depth : Nat)
    (hx : extract_ifany fs base parent line = some (.ok (bodyLines, target)))
    (hrel : target.relative_to base = none) :
    expand fs base fuel parent (line :: rest) depth = .error .valueError := by
  cases fuel with
  | zero =>
    rw [expand_zero]
    simp [expandLines, hx, hrel]
  | succ n =>
    rw [expand_succ]
    simp [expandLines, hx, hrel]

/-- C10 amended witness: a subfile directive with an absolute stem reads
its target successfully and then aborts expansion with the
relativization error. -/
theorem c10_relativization_error_witness :
    Texpack.expand
      (fun p => if p = ⟨true, [['t'], ['e', 'v', 'i', 'l', '.', 't', 'e', 'x']]⟩ then
        some [[]] else none)
      ⟨true, [['p']]⟩ 2 ⟨true, [['p']]⟩
      [['\\', 's', 'u', 'b', 'f', 'i', 'l', 'e', '\x7b', '/', 't', '/', 'e', 'v', 'i', 'l', '\x7d']] 0
      = .error .valueError :=
  c10_relativization_error
    (fun p => if p = ⟨true, [['t'], ['e', 'v', 'i', 'l', '.', 't', 'e', 'x']]⟩ then
      some [[]] else none)
    ⟨true, [['p']]⟩ ⟨true, [['p']]⟩ ⟨true, [['t'], ['e', 'v', 'i', 'l', '.', 't', 'e', 'x']]⟩
    ['\\', 's', 'u', 'b', 'f', 'i', 'l', 'e', '\x7b', '/', 't', '/', 'e', 'v', 'i', 'l', '\x7d']
    [] [] 2 0 rfl rfl

end Texpack
